import Mathlib

/-!
Verification of the IPython data-analysis MCP server (`DATA_MCP.py`).

The Python program is a thin tool layer over an embedded IPython shell and
pandas.  We embed the program's own logic shallowly:

* pure helpers (`remove_ansi_codes`, the history ring buffer, the
  auto-naming loop for loaded data frames, the session-map bookkeeping)
  are translated directly into executable Lean functions;
* calls into the external runtime (IPython `run_cell`, pandas parsing,
  `psutil` clock/memory readings) are modelled by oracle values passed as
  explicit arguments: the embedding describes exactly how the program
  combines those external results, which is all the program itself does.

Machine floats (`time.time()` deltas, megabyte figures) are carried as
opaque integer readings supplied by the oracle; no claim concerns their
arithmetic.
-/

namespace DataMCP

/-! ## ANSI escape stripping (`remove_ansi_codes`, DATA_MCP.py lines 130-136)

The Python function substitutes every non-overlapping, left-to-right match
of its ANSI regex with the empty string.  The pattern is ESC followed by
either a single byte in `0x40`-`0x5A` or `0x5C`-`0x5F`, or by `[`, then
any number of parameter bytes (`0x30`-`0x3F`), then any number of
intermediate bytes (`0x20`-`0x2F`), then one final byte (`0x40`-`0x7E`).
The three CSI byte classes are pairwise disjoint, so the regex engine's
greedy matching coincides with the deterministic scanner below. -/

/-- The ESC character `\x1B` that starts every match of the pattern. -/
def escChar : Char := Char.ofNat 27

/-- The single-byte alternative after ESC: `0x40`-`0x5A` or `0x5C`-`0x5F`. -/
def isEscSingle (c : Char) : Bool :=
  (decide (0x40 ≤ c.toNat) && decide (c.toNat ≤ 0x5A))
    || (decide (0x5C ≤ c.toNat) && decide (c.toNat ≤ 0x5F))

/-- CSI parameter byte class: `0x30`-`0x3F`. -/
def isCsiParam (c : Char) : Bool :=
  decide (0x30 ≤ c.toNat) && decide (c.toNat ≤ 0x3F)

/-- CSI intermediate byte class: `0x20`-`0x2F`. -/
def isCsiInter (c : Char) : Bool :=
  decide (0x20 ≤ c.toNat) && decide (c.toNat ≤ 0x2F)

/-- CSI final byte class: `0x40`-`0x7E`. -/
def isCsiFinal (c : Char) : Bool :=
  decide (0x40 ≤ c.toNat) && decide (c.toNat ≤ 0x7E)

/-- Match the CSI alternative of the pattern against the characters that
follow `ESC [`; returns the remainder of the input after the match. -/
def matchCsi (cs : List Char) : Option (List Char) :=
  match (cs.dropWhile isCsiParam).dropWhile isCsiInter with
  | [] => none
  | c :: rest => if isCsiFinal c then some rest else none

/-- Match the part of the pattern that follows the initial `ESC`;
returns the remainder of the input after the match. -/
def matchAnsi : List Char → Option (List Char)
  | [] => none
  | c :: cs =>
    if isEscSingle c then some cs
    else if c = '[' then matchCsi cs
    else none

theorem matchCsi_length {cs rest : List Char} (h : matchCsi cs = some rest) :
    rest.length < cs.length := by
  unfold matchCsi at h
  split at h
  · exact absurd h (by simp)
  · next c tl hd =>
    split at h
    · cases h
      have h1 : (c :: rest).length ≤ (cs.dropWhile isCsiParam).length := by
        rw [← hd]; exact (List.dropWhile_sublist _).length_le
      have h2 : (cs.dropWhile isCsiParam).length ≤ cs.length :=
        (List.dropWhile_sublist _).length_le
      simp only [List.length_cons] at h1
      omega
    · exact absurd h (by simp)

theorem matchAnsi_length {cs rest : List Char} (h : matchAnsi cs = some rest) :
    rest.length < cs.length := by
  cases cs with
  | nil => exact absurd h (by simp [matchAnsi])
  | cons c cs =>
    simp only [matchAnsi] at h
    split at h
    · cases h; simp
    · split at h
      · have := matchCsi_length h
        simp only [List.length_cons]; omega
      · exact absurd h (by simp)

/-- One left-to-right pass of `re.sub(pattern, '', text)`: characters not
starting a match are kept, matches are deleted, and scanning resumes after
each match.  The recursion is fuelled (fuel bounds the input length, the
`0` case is unreachable) so that the function computes by kernel
reduction. -/
def stripAnsiFuel : Nat → List Char → List Char
  | 0, cs => cs
  | _ + 1, [] => []
  | fuel + 1, c :: cs =>
    if c = escChar then
      match matchAnsi cs with
      | some rest => stripAnsiFuel fuel rest
      | none => c :: stripAnsiFuel fuel cs
    else c :: stripAnsiFuel fuel cs

/-- `remove_ansi_codes` (DATA_MCP.py lines 130-136): strips every
non-overlapping match of the ANSI pattern, empty text returned as is. -/
def remove_ansi_codes (s : String) : String :=
  if s = "" then s else ⟨stripAnsiFuel s.data.length s.data⟩

/-- Does the text still contain a match of the ANSI pattern (at any
position)?  This is `re.search` with the same regex. -/
def hasAnsiAux : List Char → Bool
  | [] => false
  | c :: cs => (c = escChar && (matchAnsi cs).isSome) || hasAnsiAux cs

/-- `True` when `remove_ansi_codes`'s own pattern still matches inside `s`. -/
def hasAnsi (s : String) : Bool := hasAnsiAux s.data

/-! ## Injectivity of decimal rendering

The auto-naming loop of the load tools renders a numeric counter with
Python `str(counter)`, embedded as `Nat.repr`.  Freshness of the generated
name rests on distinct counters rendering to distinct strings, proved here
by recovering the number from its digit string. -/

/-- Decimal value of a digit string, the left inverse of `Nat.toDigits 10`. -/
def decDigitsVal (cs : List Char) : Nat :=
  cs.foldl (fun a c => 10 * a + (c.toNat - 48)) 0

theorem toDigitsCore_append (f n : Nat) (ds : List Char) :
    Nat.toDigitsCore 10 f n ds = Nat.toDigitsCore 10 f n [] ++ ds := by
  induction f generalizing n ds with
  | zero => simp [Nat.toDigitsCore]
  | succ f ih =>
    simp only [Nat.toDigitsCore]
    by_cases h : n / 10 = 0
    · simp [h]
    · simp only [h, if_false]
      rw [ih (n / 10) (Nat.digitChar (n % 10) :: ds),
        ih (n / 10) [Nat.digitChar (n % 10)]]
      simp

theorem toDigitsCore_fuel (n : Nat) : ∀ f g : Nat, n < f → n < g →
    Nat.toDigitsCore 10 f n [] = Nat.toDigitsCore 10 g n [] := by
  induction n using Nat.strong_induction_on with
  | _ n ih =>
    intro f g hf hg
    obtain ⟨p, rfl⟩ : ∃ p, f = p + 1 := ⟨f - 1, by omega⟩
    obtain ⟨q, rfl⟩ : ∃ q, g = q + 1 := ⟨g - 1, by omega⟩
    simp only [Nat.toDigitsCore]
    by_cases h : n / 10 = 0
    · simp [h]
    · simp only [h, if_false]
      have hlt : n / 10 < n := Nat.div_lt_self (by omega) (by omega)
      rw [toDigitsCore_append p, toDigitsCore_append q,
        ih (n / 10) hlt p q (by omega) (by omega)]

theorem decDigitsVal_toDigits (n : Nat) :
    decDigitsVal (Nat.toDigits 10 n) = n := by
  induction n using Nat.strong_induction_on with
  | _ n ih =>
    have hdig : ∀ m : Nat, m < 10 → (Nat.digitChar m).toNat - 48 = m := by decide
    simp only [Nat.toDigits, Nat.toDigitsCore]
    by_cases h : n / 10 = 0
    · have hn : n < 10 := by omega
      have hm : n % 10 = n := Nat.mod_eq_of_lt hn
      simp [h, decDigitsVal, hm, hdig n hn]
    · simp only [h, if_false]
      have hlt : n / 10 < n := Nat.div_lt_self (by omega) (by omega)
      rw [toDigitsCore_append,
        toDigitsCore_fuel (n / 10) n (n / 10 + 1) hlt (Nat.lt_succ_self _)]
      have hrec := ih (n / 10) hlt
      simp only [Nat.toDigits] at hrec
      simp only [decDigitsVal, List.foldl_append, List.foldl_cons, List.foldl_nil]
      simp only [decDigitsVal] at hrec
      rw [hrec, hdig (n % 10) (Nat.mod_lt _ (by omega))]
      omega

theorem natRepr_injective {a b : Nat} (h : Nat.repr a = Nat.repr b) : a = b := by
  have : Nat.toDigits 10 a = Nat.toDigits 10 b := by
    simpa [Nat.repr, List.asString_inj] using h
  calc a = decDigitsVal (Nat.toDigits 10 a) := (decDigitsVal_toDigits a).symm
    _ = decDigitsVal (Nat.toDigits 10 b) := by rw [this]
    _ = b := decDigitsVal_toDigits b

/-! ## Python exceptions and returned dictionaries

Every tool returns a JSON-like dictionary.  Exceptions that the tool layer
can catch are distinguished by class, since the `except` clauses render
`ValueError` and `FileNotFoundError` bare (`str(e)`) but wrap any other
exception in a context message. -/

/-- The Python exception classes the tool layer distinguishes; the payload
is `str(e)`. -/
inductive PyExc where
  | valueError (msg : String)
  | fileNotFound (msg : String)
  | importError (msg : String)
  | other (msg : String)
deriving DecidableEq

/-- `str(e)`: the exception rendered as a string. -/
def PyExc.str : PyExc → String
  | .valueError m => m
  | .fileNotFound m => m
  | .importError m => m
  | .other m => m

/-- Values stored in a returned dictionary.  Float-valued fields
(`execution_time`, `memory_delta_mb`, ...) are carried as the opaque
integer readings the clock/memory oracle supplied; `round` is not
modelled since no claim concerns it. -/
inductive JVal where
  | jb (v : Bool)
  | js (v : String)
  | jn (v : Int)
  | jnull
  | jstrs (vs : List String)
  | jnats (vs : List Nat)
  | jmap (m : List (String × String))
deriving DecidableEq

/-- A returned dictionary: field name to value, in insertion order. -/
abbrev ToolDict := List (String × JVal)

/-- `None`-aware string field (`result`, `error`). -/
def JVal.ofOpt : Option String → JVal
  | none => .jnull
  | some s => .js s

/-! ### Python `dict` operations on association lists (unique keys) -/

/-- `d[k]`, `k in d`: first (unique) binding of `k`. -/
def dictGet {β : Type} : List (String × β) → String → Option β
  | [], _ => none
  | (k', v) :: rest, k => if k' = k then some v else dictGet rest k

/-- `d[k] = v`: replace the binding of `k` in place, else append it. -/
def dictSet {β : Type} : List (String × β) → String → β → List (String × β)
  | [], k, v => [(k, v)]
  | (k', v') :: rest, k, v =>
    if k' = k then (k, v) :: rest else (k', v') :: dictSet rest k v

/-- `del d[k]`: drop the binding of `k`. -/
def dictDel {β : Type} : List (String × β) → String → List (String × β)
  | [], _ => []
  | (k', v') :: rest, k => if k' = k then rest else (k', v') :: dictDel rest k

/-- The keys of the dictionary. -/
def keysOf {β : Type} (d : List (String × β)) : List String := d.map Prod.fst

/-! ## Session state (`IPythonSession`, DATA_MCP.py lines 138-525)

The shell's user namespace is modelled as a dictionary from variable name
to a value summary; everything the program itself does with a namespace
value is (a) test whether it is a `DataFrame`, (b) test whether it is a
module (for `keep_imports`), (c) read `DataFrame` metadata for the
response dictionary. -/

/-- Metadata of a loaded `pandas.DataFrame` as the tool layer reads it:
`df.shape` is `(rows, len cols)`, and `memMB` is the opaque reading of
`df.memory_usage(deep=True).sum() / 1024 / 1024`. -/
structure DataFrame where
  rows : Nat
  cols : List String
  dtypes : List (String × String)
  memMB : Int
deriving DecidableEq

/-- A value bound in the shell's user namespace. -/
inductive PyObj where
  | dataframe (df : DataFrame)
  | module (name : String)
  | plain (tag : String)
deriving DecidableEq

/-- A user namespace. -/
abbrev NS := List (String × PyObj)

/-- `name.startswith('_')` (DATA_MCP.py line 421). -/
def startsUnderscore (n : String) : Bool :=
  match n.data with
  | c :: _ => c = '_'
  | [] => false

/-- The names excluded from `get_variables` besides underscore names. -/
def hiddenNames : List String := ["In", "Out", "get_ipython", "exit", "quit"]

/-- The filter of `IPythonSession.get_variables` (line 421): a name is
user-visible when it does not start with `_` and is not one of the shell
builtins. -/
def isVisibleName (n : String) : Bool :=
  !startsUnderscore n && !(decide (n ∈ hiddenNames))

/-- The key set of `IPythonSession.get_variables` (lines 415-449): every
user-visible name of the namespace, in namespace order.  (The values of
that dictionary are introspection summaries of the bound objects; the
claims only concern its keys.) -/
def variablesOf (ns : NS) : List String := (keysOf ns).filter isVisibleName

/-- One entry of `session.history` (lines 293-303 / 372-382).  The
`timestamp` ISO string is a clock reading; `execution_time` is the opaque
elapsed reading. -/
structure HistoryEntry where
  execution_count : Nat
  code : String
  success : Bool
  execution_time : Int
  stdout : String
  stderr : String
  result : Option String
  error : Option String
deriving DecidableEq

/-- The `ExecutionResult` pydantic model (lines 109-118). -/
structure ExecutionResult where
  success : Bool
  execution_count : Nat
  stdout : String
  stderr : String
  result : Option String
  execution_time : Int
  memory_delta_mb : Int
  error : Option String
deriving DecidableEq

/-- What one `shell.run_cell` call (with `capture_output`) produced:
the raw captured streams, the result object already rendered by the
IPython display formatter (`none` when the cell has no result object,
matching `_format_result(None) = None`), `str(error_in_exec)` when the
cell raised, and the clock/memory readings. -/
structure RunOutcome where
  stdout : String
  stderr : String
  result : Option String
  error_in_exec : Option String
  elapsed : Int
  memDelta : Int
deriving DecidableEq

/-- A `run_cell` attempt: either it returned an outcome, or the
surrounding `try` block itself raised (`exn` carries `str(e)` and the
`traceback.format_exc()` text, plus the elapsed reading). -/
inductive RunAttempt where
  | ok (r : RunOutcome)
  | exn (emsg tb : String) (elapsed : Int)
deriving DecidableEq

/-- An `IPythonSession`: id, cumulative execution counter, history list
and user namespace.  (`created_at`/`last_used` datetimes are clock
bookkeeping no claim concerns.) -/
structure IPythonSession where
  session_id : String
  execution_count : Nat
  history : List HistoryEntry
  user_ns : NS
deriving DecidableEq

/-- The history ring buffer step (lines 304-308 / 383-387): append the
entry, then keep the last 100 entries when the list exceeds 100. -/
def histAppend (h : List HistoryEntry) (e : HistoryEntry) : List HistoryEntry :=
  let h2 := h ++ [e]
  if 100 < h2.length then h2.drop (h2.length - 100) else h2

/-- `IPythonSession.execute` (lines 336-413): run the cell capturing
output, strip ANSI codes from the captured streams and the error text,
bump the counter, append to the history ring buffer, and build the
`ExecutionResult`; if the `try` block raised, return a failure result and
leave the session unchanged. -/
def IPythonSession.execute (sess : IPythonSession) (code : String)
    (run : RunAttempt) : IPythonSession × ExecutionResult :=
  match run with
  | .exn emsg tb elapsed =>
    (sess,
      { success := false
        execution_count := sess.execution_count
        stdout := ""
        stderr := ""
        result := none
        execution_time := elapsed
        memory_delta_mb := 0
        error := some (remove_ansi_codes ("执行错误: " ++ emsg ++ "\n" ++ tb)) })
  | .ok r =>
    let cnt := sess.execution_count + 1
    let out := remove_ansi_codes r.stdout
    let err := remove_ansi_codes r.stderr
    let emsg := r.error_in_exec.map remove_ansi_codes
    let entry : HistoryEntry :=
      { execution_count := cnt
        code := code
        success := r.error_in_exec.isNone
        execution_time := r.elapsed
        stdout := out
        stderr := err
        result := r.result
        error := emsg }
    ({ sess with execution_count := cnt, history := histAppend sess.history entry },
      { success := r.error_in_exec.isNone
        execution_count := cnt
        stdout := out
        stderr := err
        result := r.result
        execution_time := r.elapsed
        memory_delta_mb := r.memDelta
        error := emsg })

/-- `IPythonSession.execute_expression_only` (lines 262-334): identical
bookkeeping but `run_cell` is called without output capture, so the
`stdout`/`stderr` fields of the history entry and of the result are the
empty string regardless of what the submission wrote. -/
def IPythonSession.execute_expression_only (sess : IPythonSession)
    (code : String) (run : RunAttempt) : IPythonSession × ExecutionResult :=
  match run with
  | .exn emsg tb elapsed =>
    (sess,
      { success := false
        execution_count := sess.execution_count
        stdout := ""
        stderr := ""
        result := none
        execution_time := elapsed
        memory_delta_mb := 0
        error := some (remove_ansi_codes ("执行错误: " ++ emsg ++ "\n" ++ tb)) })
  | .ok r =>
    let cnt := sess.execution_count + 1
    let emsg := r.error_in_exec.map remove_ansi_codes
    let entry : HistoryEntry :=
      { execution_count := cnt
        code := code
        success := r.error_in_exec.isNone
        execution_time := r.elapsed
        stdout := ""
        stderr := ""
        result := r.result
        error := emsg }
    ({ sess with execution_count := cnt, history := histAppend sess.history entry },
      { success := r.error_in_exec.isNone
        execution_count := cnt
        stdout := ""
        stderr := ""
        result := r.result
        execution_time := r.elapsed
        memory_delta_mb := r.memDelta
        error := emsg })

/-! ## Session manager (`IPythonSessionManager`, lines 527-579)

The manager holds the session map; every method body runs under
`self.lock`, which in a sequential embedding is simply the method body
(the interleaving model for the concurrency claim is separate, below). -/

/-- The session map. -/
structure IPythonSessionManager where
  sessions : List (String × IPythonSession)
deriving DecidableEq

/-- `create_session` (lines 534-545): default the id to
`session_<uuid4().hex[:8]>` (the oracle supplies the hex digest), raise
`ValueError` when the id is already mapped, otherwise construct a fresh
session and map it.  `initNS` is the namespace the `IPythonSession`
constructor leaves behind (auto-imports are `run_cell` effects). -/
def IPythonSessionManager.create_session (m : IPythonSessionManager)
    (session_id : Option String) (genHex : String) (initNS : NS) :
    Except PyExc (IPythonSessionManager × String) :=
  let sid := session_id.getD ("session_" ++ genHex)
  if (dictGet m.sessions sid).isSome then
    .error (.valueError ("Session " ++ sid ++ " already exists"))
  else
    .ok ({ sessions := dictSet m.sessions sid
            { session_id := sid, execution_count := 0, history := [], user_ns := initNS } },
      sid)

/-- `get_session` (lines 547-552): raise `ValueError` for an unknown id. -/
def IPythonSessionManager.get_session (m : IPythonSessionManager)
    (sid : String) : Except PyExc IPythonSession :=
  match dictGet m.sessions sid with
  | some s => .ok s
  | none => .error (.valueError ("Session " ++ sid ++ " not found"))

/-- `delete_session` (lines 554-560): delete the mapping when present and
report whether anything was deleted. -/
def IPythonSessionManager.delete_session (m : IPythonSessionManager)
    (sid : String) : IPythonSessionManager × Bool :=
  if (dictGet m.sessions sid).isSome then
    ({ sessions := dictDel m.sessions sid }, true)
  else (m, false)

/-! ## Paths and the auto-generated variable name (lines 1153-1163 and
the twin blocks in the Excel/JSON loaders) -/

/-- Split a character list on a separator character (the semantics of
`str.split('/')` needed here, over `List Char` so that it computes by
kernel reduction). -/
def splitOnChar (c : Char) : List Char → List (List Char)
  | [] => [[]]
  | x :: rest =>
    let r := splitOnChar c rest
    if x = c then [] :: r
    else
      match r with
      | seg :: ss => (x :: seg) :: ss
      | [] => [[x]]

/-- The file name component of a path (`pathlib.PurePath.name` for paths
without trailing separators): the last `/`-separated segment. -/
def pathBaseName (p : String) : String := ⟨(splitOnChar '/' p.data).getLastD []⟩

/-- Index of the last `'.'` in the character list, if any. -/
def lastDotIdx (cs : List Char) : Option Nat :=
  match cs.reverse.findIdx? (· = '.') with
  | none => none
  | some j => some (cs.length - 1 - j)

/-- `pathlib.Path(p).stem`: the file name with its last suffix removed;
the suffix is non-empty only when the last dot is neither the first nor
the last character of the name. -/
def pathStem (p : String) : String :=
  let base := pathBaseName p
  match lastDotIdx base.data with
  | some i => if 0 < i ∧ i + 1 < base.data.length then ⟨base.data.take i⟩ else base
  | none => base

/-- `pathlib.Path(p).suffix` (used by the Excel loader for its engine
choice), with the same dot convention as `pathStem`. -/
def pathSuffix (p : String) : String :=
  let base := pathBaseName p
  match lastDotIdx base.data with
  | some i => if 0 < i ∧ i + 1 < base.data.length then ⟨base.data.drop i⟩ else ""
  | none => ""

/-- Candidate name `f"df_{base}_{counter}"` tried by the conflict loop. -/
def candName (base : String) (k : Nat) : String :=
  "df_" ++ base ++ "_" ++ Nat.repr k

/-- The `while variable_name in variables` loop of the loaders, counting
`counter = 1, 2, ...`.  The Python loop is unbounded; `vars.length + 1`
fuel is enough to reach a fresh candidate (`autoNameLoop_fresh` below), so
on that fuel this function equals the loop on every input. -/
def autoNameLoop (base : String) (vars : List String) : Nat → Nat → String
  | 0, c => candName base c
  | fuel + 1, c =>
    if candName base c ∈ vars then autoNameLoop base vars fuel (c + 1)
    else candName base c

/-- The auto-generated variable name when `variable_name` is omitted:
`f"df_{base}"`, with a numeric suffix bumped until the name is not a key
of `get_variables()`. -/
def autoName (base : String) (vars : List String) : String :=
  if ("df_" ++ base) ∈ vars then autoNameLoop base vars (vars.length + 1) 1
  else "df_" ++ base

/-! ## `DataLoader` (lines 581-678)

`pd.read_csv` / `pd.read_excel` / `pd.read_json` and
`detect_encoding`'s file probing are external; an oracle supplies their
outcome.  The loader's own logic is the availability and existence
checks, the encoding default and the Excel engine choice. -/

/-- Outcome of the external CSV parse: the detected encoding (only
consulted when `encoding == "auto"`), the parse result, and the elapsed
reading. -/
structure CsvOracle where
  detected : String
  parse : Except PyExc DataFrame
  load_time : Int

/-- Outcome of an external Excel/JSON parse. -/
structure LoadOracle where
  parse : Except PyExc DataFrame
  load_time : Int

/-- `DataLoader.load_csv` (lines 599-615). -/
def DataLoader.load_csv (pandasAvail : Bool) (fsHas : String → Bool)
    (o : CsvOracle) (file_path : String) (encoding : String) :
    Except PyExc (DataFrame × String × Int) :=
  if !pandasAvail then .error (.importError "pandas is required for CSV loading")
  else if !fsHas file_path then
    .error (.fileNotFound ("File not found: " ++ file_path))
  else
    let enc := if encoding = "auto" then o.detected else encoding
    match o.parse with
    | .error e => .error e
    | .ok df => .ok (df, enc, o.load_time)

/-- `DataLoader.load_excel` (lines 617-663).  The engine fallback loop for
unknown extensions happens inside `pd.read_excel` attempts and is part of
the parse oracle. -/
def DataLoader.load_excel (pandasAvail xlsxAvail xlsAvail : Bool)
    (fsHas : String → Bool) (o : LoadOracle) (file_path : String) :
    Except PyExc (DataFrame × Int) :=
  if !pandasAvail then .error (.importError "pandas is required for Excel loading")
  else if !(xlsxAvail || xlsAvail) then
    .error (.importError
      "Excel support libraries are required. Install with: pip install openpyxl xlrd")
  else if !fsHas file_path then
    .error (.fileNotFound ("File not found: " ++ file_path))
  else
    let ext := (pathSuffix file_path).toLower
    if ext = ".xlsx" ∧ !xlsxAvail then
      .error (.importError
        "openpyxl is required for .xlsx files. Install with: pip install openpyxl")
    else if ext = ".xls" ∧ !xlsAvail then
      .error (.importError
        "xlrd is required for .xls files. Install with: pip install xlrd")
    else
      match o.parse with
      | .error e => .error e
      | .ok df => .ok (df, o.load_time)

/-- `DataLoader.load_json` (lines 665-678). -/
def DataLoader.load_json (pandasAvail : Bool) (fsHas : String → Bool)
    (o : LoadOracle) (file_path : String) : Except PyExc (DataFrame × Int) :=
  if !pandasAvail then .error (.importError "pandas is required for JSON loading")
  else if !fsHas file_path then
    .error (.fileNotFound ("File not found: " ++ file_path))
  else
    match o.parse with
    | .error e => .error e
    | .ok df => .ok (df, o.load_time)

/-! ## The tool layer (lines 691-2240)

Every tool body is one `try` block; the `except` clauses below are shared
shapes: `catchAll` for tools with a single catch-all clause, `catchVE`
when `ValueError` is additionally rendered bare, `catchFNF` when
`FileNotFoundError` and `ValueError` are rendered bare.  A tool never
re-raises and never retries: its value is a total function of one
delegated attempt. -/

/-- The failure dictionary every `except` clause builds. -/
def failDict (msg : String) : ToolDict :=
  [("success", JVal.jb false), ("error", JVal.js msg)]

/-- `except Exception as e: return {success: False, error: ctx + str(e)}`. -/
def catchAll (ctx : String) : Except PyExc ToolDict → ToolDict
  | .ok d => d
  | .error e => failDict (ctx ++ e.str)

/-- `except ValueError` rendered bare, then the catch-all clause. -/
def catchVE (ctx : String) : Except PyExc ToolDict → ToolDict
  | .ok d => d
  | .error (.valueError msg) => failDict msg
  | .error e => failDict (ctx ++ e.str)

/-- `except FileNotFoundError` and `except ValueError` rendered bare,
then the catch-all clause. -/
def catchFNF (ctx : String) : Except PyExc ToolDict → ToolDict
  | .ok d => d
  | .error (.fileNotFound msg) => failDict msg
  | .error (.valueError msg) => failDict msg
  | .error e => failDict (ctx ++ e.str)

/-- `create_ipython_session` (lines 691-750). -/
def create_ipython_session (ipyAvail : Bool) (m : IPythonSessionManager)
    (session_id : Option String) (auto_import : Bool) (genHex : String)
    (initNS : NS) : IPythonSessionManager × ToolDict :=
  if !ipyAvail then
    (m, failDict "IPython is not available. Please install with: pip install ipython")
  else
    match m.create_session session_id genHex initNS with
    | .ok (m', sid) =>
      (m',
        [("success", .jb true),
         ("session_id", .js sid),
         ("message", .js ("IPython session " ++ sid ++ " created successfully")),
         ("auto_imported", .jstrs (if auto_import then
            ["pandas", "numpy", "json", "os", "sys", "pathlib"] else []))])
    | .error e => (m, catchAll "Failed to create session: " (.error e))

/-- `delete_ipython_session` (lines 874-914).  `delete_session` cannot
raise, so the tool's catch-all clause is unreachable. -/
def delete_ipython_session (m : IPythonSessionManager) (sid : String) :
    IPythonSessionManager × ToolDict :=
  let md := m.delete_session sid
  if md.2 then
    (md.1, [("success", .jb true),
      ("message", .js ("Session " ++ sid ++ " deleted successfully"))])
  else
    (md.1, failDict ("Session " ++ sid ++ " not found"))

/-- `execute_code` (lines 916-1021).  `capture_output` is accepted and
ignored, as in the source. -/
def execute_code (m : IPythonSessionManager) (code sid : String)
    (capture_output expression_only : Bool) (run : RunAttempt) :
    IPythonSessionManager × ToolDict :=
  match m.get_session sid with
  | .error e => (m, catchVE "Failed to execute code: " (.error e))
  | .ok sess =>
    let sr := if expression_only then sess.execute_expression_only code run
      else sess.execute code run
    ({ sessions := dictSet m.sessions sid sr.1 },
      [("success", .jb sr.2.success),
       ("execution_count", .jn (sr.2.execution_count : Int)),
       ("stdout", .js sr.2.stdout),
       ("stderr", .js sr.2.stderr),
       ("result", .ofOpt sr.2.result),
       ("execution_time", .jn sr.2.execution_time),
       ("memory_delta_mb", .jn sr.2.memory_delta_mb),
       ("error", .ofOpt sr.2.error)])

/-- `load_csv_file` (lines 1086-1197). -/
def load_csv_file (pandasAvail : Bool) (fsHas : String → Bool)
    (o : CsvOracle) (m : IPythonSessionManager) (file_path sid : String)
    (variable_name : Option String) (encoding : String) :
    IPythonSessionManager × ToolDict :=
  if !pandasAvail then
    (m, failDict "pandas is not available. Please install with: pip install pandas numpy")
  else
    match m.get_session sid with
    | .error e => (m, catchFNF "Failed to load CSV file: " (.error e))
    | .ok sess =>
      match DataLoader.load_csv pandasAvail fsHas o file_path encoding with
      | .error e => (m, catchFNF "Failed to load CSV file: " (.error e))
      | .ok (df, enc, lt) =>
        let vname := match variable_name with
          | some v => v
          | none => autoName (pathStem file_path) (variablesOf sess.user_ns)
        let sess' := { sess with user_ns := dictSet sess.user_ns vname (.dataframe df) }
        ({ sessions := dictSet m.sessions sid sess' },
          [("success", .jb true),
           ("variable_name", .js vname),
           ("shape", .jnats [df.rows, df.cols.length]),
           ("columns", .jstrs df.cols),
           ("dtypes", .jmap df.dtypes),
           ("memory_usage_mb", .jn df.memMB),
           ("encoding_detected", .js enc),
           ("load_time", .jn lt)])

/-- A `sheet_name: Union[str, int]` argument. -/
inductive SheetRef where
  | idx (n : Nat)
  | named (s : String)
deriving DecidableEq

/-- Render a `SheetRef` in the response dictionary. -/
def SheetRef.toJVal : SheetRef → JVal
  | .idx n => .jn (n : Int)
  | .named s => .js s

/-- `load_excel_file` (lines 1199-1296). -/
def load_excel_file (pandasAvail xlsxAvail xlsAvail : Bool)
    (fsHas : String → Bool) (o : LoadOracle) (m : IPythonSessionManager)
    (file_path sid : String) (variable_name : Option String)
    (sheet_name : SheetRef) : IPythonSessionManager × ToolDict :=
  if !pandasAvail then
    (m, failDict "pandas is not available. Please install with: pip install pandas numpy")
  else if !(xlsxAvail || xlsAvail) then
    (m, failDict
      "Excel support libraries are not available. Please install with: pip install openpyxl xlrd")
  else
    match m.get_session sid with
    | .error e => (m, catchFNF "Failed to load Excel file: " (.error e))
    | .ok sess =>
      match DataLoader.load_excel pandasAvail xlsxAvail xlsAvail fsHas o file_path with
      | .error e => (m, catchFNF "Failed to load Excel file: " (.error e))
      | .ok (df, lt) =>
        let vname := match variable_name with
          | some v => v
          | none => autoName (pathStem file_path) (variablesOf sess.user_ns)
        let sess' := { sess with user_ns := dictSet sess.user_ns vname (.dataframe df) }
        ({ sessions := dictSet m.sessions sid sess' },
          [("success", .jb true),
           ("variable_name", .js vname),
           ("shape", .jnats [df.rows, df.cols.length]),
           ("columns", .jstrs df.cols),
           ("dtypes", .jmap df.dtypes),
           ("memory_usage_mb", .jn df.memMB),
           ("sheet_name", sheet_name.toJVal),
           ("load_time", .jn lt)])

/-- `load_json_file` (lines 1298-1382). -/
def load_json_file (pandasAvail : Bool) (fsHas : String → Bool)
    (o : LoadOracle) (m : IPythonSessionManager) (file_path sid : String)
    (variable_name : Option String) : IPythonSessionManager × ToolDict :=
  if !pandasAvail then
    (m, failDict "pandas is not available. Please install with: pip install pandas numpy")
  else
    match m.get_session sid with
    | .error e => (m, catchFNF "Failed to load JSON file: " (.error e))
    | .ok sess =>
      match DataLoader.load_json pandasAvail fsHas o file_path with
      | .error e => (m, catchFNF "Failed to load JSON file: " (.error e))
      | .ok (df, lt) =>
        let vname := match variable_name with
          | some v => v
          | none => autoName (pathStem file_path) (variablesOf sess.user_ns)
        let sess' := { sess with user_ns := dictSet sess.user_ns vname (.dataframe df) }
        ({ sessions := dictSet m.sessions sid sess' },
          [("success", .jb true),
           ("variable_name", .js vname),
           ("shape", .jnats [df.rows, df.cols.length]),
           ("columns", .jstrs df.cols),
           ("dtypes", .jmap df.dtypes),
           ("memory_usage_mb", .jn df.memMB),
           ("load_time", .jn lt)])

/-- Is the name bound to a module object?  (`keep_imports` test, lines
2191-2194: `hasattr(value, '__module__')` and `'module'` in the type
name.) -/
def isModuleBinding (ns : NS) (n : String) : Bool :=
  match dictGet ns n with
  | some (.module _) => true
  | _ => false

/-- `clear_variables` (lines 2142-2240).  `memBefore`/`memAfter` are the
two `psutil` memory readings around the deletion. -/
def clear_variables (m : IPythonSessionManager) (sid : String)
    (variable_names : Option (List String)) (clear_all keep_imports : Bool)
    (memBefore memAfter : Int) : IPythonSessionManager × ToolDict :=
  match m.get_session sid with
  | .error e => (m, catchVE "Failed to clear variables: " (.error e))
  | .ok sess =>
    if clear_all then
      let toDelete := (keysOf sess.user_ns).filter (fun n =>
        isVisibleName n && !(keep_imports && isModuleBinding sess.user_ns n))
      let ns' := toDelete.foldl dictDel sess.user_ns
      let sess' := { sess with user_ns := ns' }
      ({ sessions := dictSet m.sessions sid sess' },
        [("success", .jb true),
         ("cleared_variables", .jstrs toDelete),
         ("memory_freed_mb", .jn (memBefore - memAfter)),
         ("remaining_variables", .jn ((variablesOf ns').length : Int))])
    else
      match variable_names with
      | some (n0 :: rest) =>
        let step := fun (acc : NS × List String) n =>
          if (dictGet acc.1 n).isSome then (dictDel acc.1 n, acc.2 ++ [n]) else acc
        let res := (n0 :: rest).foldl step (sess.user_ns, [])
        let sess' := { sess with user_ns := res.1 }
        ({ sessions := dictSet m.sessions sid sess' },
          [("success", .jb true),
           ("cleared_variables", .jstrs res.2),
           ("memory_freed_mb", .jn (memBefore - memAfter)),
           ("remaining_variables", .jn ((variablesOf res.1).length : Int))])
      | _ => (m, failDict "Must specify either variable_names or set clear_all=True")

/-! The remaining ten tools are read-only inspections whose `try` block
delegates to pandas/psutil introspection; the `body` argument is that
block's outcome, and the tool contributes exactly its `except` clauses
(the claims concern only that error shape). -/

/-- `list_ipython_sessions` (lines 752-794). -/
def list_ipython_sessions (body : Except PyExc ToolDict) : ToolDict :=
  catchAll "Failed to list sessions: " body

/-- `get_session_status` (lines 796-872). -/
def get_session_status (body : Except PyExc ToolDict) : ToolDict :=
  catchVE "Failed to get session status: " body

/-- `get_execution_history` (lines 1023-1084). -/
def get_execution_history (body : Except PyExc ToolDict) : ToolDict :=
  catchVE "Failed to get execution history: " body

/-- `list_dataframes` (lines 1384-1446). -/
def list_dataframes (body : Except PyExc ToolDict) : ToolDict :=
  catchVE "Failed to list dataframes: " body

/-- `get_dataframe_info` (lines 1448-1547). -/
def get_dataframe_info (body : Except PyExc ToolDict) : ToolDict :=
  catchVE "Failed to get dataframe info: " body

/-- `preview_dataframe` (lines 1549-1636). -/
def preview_dataframe (body : Except PyExc ToolDict) : ToolDict :=
  catchVE "Failed to preview dataframe: " body

/-- `get_dataframe_summary` (lines 1638-1724). -/
def get_dataframe_summary (body : Except PyExc ToolDict) : ToolDict :=
  catchVE "Failed to get dataframe summary: " body

/-- `check_memory_usage` (lines 1726-1782). -/
def check_memory_usage (body : Except PyExc ToolDict) : ToolDict :=
  catchVE "Failed to check memory usage: " body

/-- `get_variable_info` (lines 1784-1911). -/
def get_variable_info (body : Except PyExc ToolDict) : ToolDict :=
  catchVE "Failed to get variable info: " body

/-- `sample_column_data` (lines 1913-2140). -/
def sample_column_data (body : Except PyExc ToolDict) : ToolDict :=
  catchVE "Failed to sample column data: " body

/-! ## Interleaving model of the manager lock (lines 527-560 and 336-413)

`create_session`/`delete_session`/`get_session` mutate or read the session
map strictly inside `with self.lock`; `IPythonSession.execute` mutates the
shared shell and history with no lock held.  A thread's program is its
list of atomic actions; a complete schedule is an interleaving of the two
programs, feasible when its lock actions respect mutual exclusion (an
`acquire` of a held lock blocks, so no feasible schedule contains it). -/

/-- Atomic actions of the two-thread model. -/
inductive ThreadAct where
  | acquire (tid : Nat)
  | release (tid : Nat)
  | mapMutate (tid : Nat)
  | shellMutate (tid : Nat)
deriving DecidableEq

/-- A `create_session`/`delete_session` call by thread `t`: the map
mutation bracketed by the manager's lock (lines 536, 549, 556). -/
def guardedProg (t : Nat) : List ThreadAct :=
  [.acquire t, .mapMutate t, .release t]

/-- An `execute` call by thread `t` on a shared session: two successive
unprotected mutations of interpreter state (`run_cell`, then the
history/counter update), no lock anywhere (lines 336-413). -/
def executeProg (t : Nat) : List ThreadAct :=
  [.shellMutate t, .shellMutate t]

/-- All interleavings of two action lists (fuelled; fuel is the total
length, the `0` case is unreachable). -/
def interleavingsFuel {α : Type} : Nat → List α → List α → List (List α)
  | 0, xs, ys => [xs ++ ys]
  | _ + 1, [], ys => [ys]
  | _ + 1, xs, [] => [xs]
  | fuel + 1, x :: xs, y :: ys =>
    (interleavingsFuel fuel xs (y :: ys)).map (x :: ·) ++
      (interleavingsFuel fuel (x :: xs) ys).map (y :: ·)

/-- All interleavings of two thread programs. -/
def interleavings {α : Type} (xs ys : List α) : List (List α) :=
  interleavingsFuel (xs.length + ys.length) xs ys

/-- Is the schedule feasible for one mutual-exclusion lock?  The state is
the holder; acquiring a held lock or releasing a lock one does not hold
never happens in a feasible schedule. -/
def lockOk : Option Nat → List ThreadAct → Bool
  | _, [] => true
  | none, .acquire t :: rest => lockOk (some t) rest
  | some _, .acquire _ :: _ => false
  | some h, .release t :: rest => if t = h then lockOk none rest else false
  | none, .release _ :: _ => false
  | st, .mapMutate _ :: rest => lockOk st rest
  | st, .shellMutate _ :: rest => lockOk st rest

/-! ## Dictionary lemmas -/

theorem keysOf_nil {β : Type} : keysOf ([] : List (String × β)) = [] := rfl

theorem keysOf_cons {β : Type} (p : String × β) (rest : List (String × β)) :
    keysOf (p :: rest) = p.1 :: keysOf rest := rfl

theorem dictGet_eq_none_iff {β : Type} (d : List (String × β)) (k : String) :
    dictGet d k = none ↔ k ∉ keysOf d := by
  induction d with
  | nil => simp [dictGet, keysOf_nil]
  | cons p rest ih =>
    obtain ⟨k', v⟩ := p
    by_cases h : k' = k
    · subst h; simp [dictGet, keysOf_cons]
    · simp [dictGet, keysOf_cons, h, Ne.symm h, ih]

theorem dictGet_isSome_iff {β : Type} (d : List (String × β)) (k : String) :
    (dictGet d k).isSome = true ↔ k ∈ keysOf d := by
  constructor
  · intro h
    by_contra hk
    rw [(dictGet_eq_none_iff d k).mpr hk] at h
    simp at h
  · intro hk
    rcases ho : dictGet d k with _ | v
    · exact absurd ((dictGet_eq_none_iff d k).mp ho) (by simp [hk])
    · rfl

theorem dictGet_dictSet_self {β : Type} (d : List (String × β)) (k : String)
    (v : β) : dictGet (dictSet d k v) k = some v := by
  induction d with
  | nil => simp [dictSet, dictGet]
  | cons p rest ih =>
    obtain ⟨k', v'⟩ := p
    by_cases h : k' = k
    · subst h; simp [dictSet, dictGet]
    · simp [dictSet, dictGet, h, ih]

theorem dictGet_dictSet_ne {β : Type} (d : List (String × β)) (k k' : String)
    (v : β) (h : k' ≠ k) : dictGet (dictSet d k v) k' = dictGet d k' := by
  induction d with
  | nil => simp [dictSet, dictGet, Ne.symm h]
  | cons p rest ih =>
    obtain ⟨k₀, v₀⟩ := p
    by_cases h0 : k₀ = k
    · subst h0
      simp [dictSet, dictGet, Ne.symm h]
    · simp only [dictSet, if_neg h0, dictGet]
      by_cases h1 : k₀ = k'
      · rw [if_pos h1, if_pos h1]
      · rw [if_neg h1, if_neg h1, ih]

theorem dictSet_of_notMem {β : Type} (d : List (String × β)) (k : String)
    (v : β) (h : k ∉ keysOf d) : dictSet d k v = d ++ [(k, v)] := by
  induction d with
  | nil => simp [dictSet]
  | cons p rest ih =>
    obtain ⟨k', v'⟩ := p
    rw [keysOf_cons, List.mem_cons] at h
    push_neg at h
    have hne : ¬(k' = k) := fun he => h.1 he.symm
    simp only [dictSet, if_neg hne, List.cons_append]
    exact congrArg _ (ih h.2)

theorem dictGet_dictDel_ne {β : Type} (d : List (String × β)) (k k' : String)
    (h : k' ≠ k) : dictGet (dictDel d k) k' = dictGet d k' := by
  induction d with
  | nil => simp [dictDel]
  | cons p rest ih =>
    obtain ⟨k₀, v₀⟩ := p
    by_cases h0 : k₀ = k
    · subst h0
      simp [dictDel, dictGet, Ne.symm h]
    · simp only [dictDel, if_neg h0, dictGet]
      by_cases h1 : k₀ = k'
      · rw [if_pos h1, if_pos h1]
      · rw [if_neg h1, if_neg h1, ih]

theorem dictGet_dictDel_self {β : Type} (d : List (String × β)) (k : String)
    (hnd : (keysOf d).Nodup) : dictGet (dictDel d k) k = none := by
  induction d with
  | nil => simp [dictDel, dictGet]
  | cons p rest ih =>
    obtain ⟨k₀, v₀⟩ := p
    rw [keysOf_cons, List.nodup_cons] at hnd
    by_cases h0 : k₀ = k
    · subst h0
      simp only [dictDel, if_pos rfl]
      exact (dictGet_eq_none_iff rest k₀).mpr hnd.1
    · simp [dictDel, dictGet, h0, ih hnd.2]

/-! ## Lemmas about the ANSI stripper -/

/-- The stripping pass at its canonical fuel. -/
def stripAnsi (cs : List Char) : List Char := stripAnsiFuel cs.length cs

theorem stripAnsiFuel_nil (f : Nat) : stripAnsiFuel f [] = [] := by
  cases f <;> rfl

theorem stripAnsiFuel_congr : ∀ f : Nat, ∀ cs : List Char, ∀ g : Nat,
    cs.length ≤ f → cs.length ≤ g → stripAnsiFuel f cs = stripAnsiFuel g cs := by
  intro f
  induction f using Nat.strong_induction_on with
  | _ f ih =>
    intro cs g hf hg
    rcases cs with _ | ⟨c, cs⟩
    · rw [stripAnsiFuel_nil, stripAnsiFuel_nil]
    · simp only [List.length_cons] at hf hg
      obtain ⟨p, rfl⟩ : ∃ p, f = p + 1 := ⟨f - 1, by omega⟩
      obtain ⟨q, rfl⟩ : ∃ q, g = q + 1 := ⟨g - 1, by omega⟩
      by_cases hc : c = escChar
      · subst hc
        rcases hm : matchAnsi cs with _ | rest
        · simp only [stripAnsiFuel, if_pos rfl, hm]
          rw [ih p (by omega) cs q (by omega) (by omega)]
        · simp only [stripAnsiFuel, if_pos rfl, hm]
          have hr := matchAnsi_length hm
          exact ih p (by omega) rest q (by omega) (by omega)
      · simp only [stripAnsiFuel, if_neg hc]
        rw [ih p (by omega) cs q (by omega) (by omega)]

theorem stripAnsi_cons_ne {c : Char} (cs : List Char) (hc : c ≠ escChar) :
    stripAnsi (c :: cs) = c :: stripAnsi cs := by
  simp only [stripAnsi, List.length_cons, stripAnsiFuel, if_neg hc]

theorem stripAnsi_esc_some {cs rest : List Char} (hm : matchAnsi cs = some rest) :
    stripAnsi (escChar :: cs) = stripAnsi rest := by
  have hr := matchAnsi_length hm
  simp only [stripAnsi, List.length_cons, stripAnsiFuel, if_pos rfl, hm]
  exact stripAnsiFuel_congr cs.length rest rest.length (by omega) (le_refl _)

theorem stripAnsi_esc_none {cs : List Char} (hm : matchAnsi cs = none) :
    stripAnsi (escChar :: cs) = escChar :: stripAnsi cs := by
  simp only [stripAnsi, List.length_cons, stripAnsiFuel, if_pos rfl, hm]
  simp

theorem remove_ansi_codes_data (s : String) :
    (remove_ansi_codes s).data = stripAnsi s.data := by
  unfold remove_ansi_codes
  by_cases h : s = ""
  · subst h; rfl
  · rw [if_neg h]
    rfl

theorem stripAnsi_of_not_mem {cs : List Char} (h : escChar ∉ cs) :
    stripAnsi cs = cs := by
  induction cs with
  | nil => rfl
  | cons c cs ih =>
    rw [List.mem_cons] at h
    push_neg at h
    rw [stripAnsi_cons_ne cs (Ne.symm h.1), ih h.2]

theorem hasAnsiAux_of_not_mem {cs : List Char} (h : escChar ∉ cs) :
    hasAnsiAux cs = false := by
  induction cs with
  | nil => rfl
  | cons c cs ih =>
    rw [List.mem_cons] at h
    push_neg at h
    simp [hasAnsiAux, Ne.symm h.1, ih h.2]

theorem matchCsi_sublist {cs rest : List Char} (h : matchCsi cs = some rest) :
    rest.Sublist cs := by
  unfold matchCsi at h
  split at h
  · exact absurd h (by simp)
  · next c tl hd =>
    split at h
    · cases h
      have h1 : (c :: rest).Sublist (cs.dropWhile isCsiParam) := by
        rw [← hd]; exact List.dropWhile_sublist _
      have h2 : rest.Sublist (c :: rest) := List.sublist_cons_self c rest
      exact (h2.trans h1).trans (List.dropWhile_sublist _)
    · exact absurd h (by simp)

theorem matchAnsi_sublist {cs rest : List Char} (h : matchAnsi cs = some rest) :
    rest.Sublist cs := by
  cases cs with
  | nil => exact absurd h (by simp [matchAnsi])
  | cons c cs =>
    simp only [matchAnsi] at h
    split at h
    · injection h with hh
      subst hh
      exact List.sublist_cons_self c cs
    · split at h
      · exact (matchCsi_sublist h).trans (List.sublist_cons_self c cs)
      · exact absurd h (by simp)

/-- The core single-ESC lemma: strings holding at most one ESC strip to a
fixed point with no residual match. -/
theorem stripAnsi_single_esc {cs : List Char} (h : cs.count escChar ≤ 1) :
    stripAnsi (stripAnsi cs) = stripAnsi cs ∧ hasAnsiAux (stripAnsi cs) = false := by
  induction cs with
  | nil => exact ⟨rfl, rfl⟩
  | cons c cs ih =>
    by_cases hc : c = escChar
    · subst hc
      have hcnt : cs.count escChar = 0 := by
        rw [List.count_cons_self] at h; omega
      have hmem : escChar ∉ cs := List.count_eq_zero.mp hcnt
      rcases hm : matchAnsi cs with _ | rest
      · constructor
        · rw [stripAnsi_esc_none hm, stripAnsi_of_not_mem hmem,
            stripAnsi_esc_none hm, stripAnsi_of_not_mem hmem]
        · rw [stripAnsi_esc_none hm, stripAnsi_of_not_mem hmem]
          simp [hasAnsiAux, hm, hasAnsiAux_of_not_mem hmem]
      · have hmemr : escChar ∉ rest := fun hr => hmem ((matchAnsi_sublist hm).subset hr)
        rw [stripAnsi_esc_some hm, stripAnsi_of_not_mem hmemr]
        exact ⟨stripAnsi_of_not_mem hmemr, hasAnsiAux_of_not_mem hmemr⟩
    · have hcs : cs.count escChar ≤ 1 := by
        rw [List.count_cons] at h
        omega
      obtain ⟨hid, hha⟩ := ih hcs
      rw [stripAnsi_cons_ne cs hc]
      constructor
      · rw [stripAnsi_cons_ne _ hc, hid]
      · simp [hasAnsiAux, hc, hha]

/-! ## Freshness of the auto-generated variable name -/

theorem candName_inj (base : String) {i j : Nat}
    (h : candName base i = candName base j) : i = j := by
  unfold candName at h
  have hd := congrArg String.data h
  simp only [String.data_append, List.append_assoc] at hd
  have h1 := List.append_cancel_left (List.append_cancel_left
    (List.append_cancel_left hd))
  exact natRepr_injective (String.ext h1)

theorem exists_fresh_cand (base : String) (vars : List String) :
    ∃ k, 1 ≤ k ∧ k < vars.length + 2 ∧ candName base k ∉ vars := by
  by_contra hall
  push_neg at hall
  have hmaps : ∀ i : Fin (vars.length + 1),
      candName base (i.val + 1) ∈ vars.toFinset := by
    intro i
    rw [List.mem_toFinset]
    exact hall _ (by omega) (by omega)
  have hinj : Function.Injective
      (fun i : Fin (vars.length + 1) => candName base (i.val + 1)) := by
    intro a b hab
    have := candName_inj base hab
    exact Fin.ext (by omega)
  have hcard : (Finset.univ : Finset (Fin (vars.length + 1))).card ≤
      vars.toFinset.card :=
    Finset.card_le_card_of_injOn
      (fun i : Fin (vars.length + 1) => candName base (i.val + 1))
      (fun i _ => hmaps i) hinj.injOn
  have h1 : vars.toFinset.card ≤ vars.length := vars.toFinset_card_le
  simp only [Finset.card_univ, Fintype.card_fin] at hcard
  omega

theorem autoNameLoop_fresh (base : String) (vars : List String) :
    ∀ fuel c : Nat, (∃ k, c ≤ k ∧ k < c + fuel ∧ candName base k ∉ vars) →
      autoNameLoop base vars fuel c ∉ vars := by
  intro fuel
  induction fuel with
  | zero =>
    rintro c ⟨k, h1, h2, _⟩
    exact absurd h2 (by omega)
  | succ f ih =>
    rintro c ⟨k, h1, h2, h3⟩
    by_cases hc : candName base c ∈ vars
    · have hck : c ≠ k := by
        intro he; rw [he] at hc; exact h3 hc
      simp only [autoNameLoop, if_pos hc]
      exact ih (c + 1) ⟨k, by omega, by omega, h3⟩
    · simp only [autoNameLoop, if_neg hc]
      exact hc

/-- The generated name is never a key of `get_variables()`. -/
theorem autoName_fresh (base : String) (vars : List String) :
    autoName base vars ∉ vars := by
  unfold autoName
  by_cases h : ("df_" ++ base) ∈ vars
  · rw [if_pos h]
    apply autoNameLoop_fresh
    obtain ⟨k, h1, h2, h3⟩ := exists_fresh_cand base vars
    exact ⟨k, h1, by omega, h3⟩
  · rw [if_neg h]
    exact h

theorem data_df_append (s : String) :
    ("df_" ++ s).data = 'd' :: 'f' :: '_' :: s.data := by
  rw [String.data_append]
  rfl

theorem df_append_not_hidden (s : String) : ("df_" ++ s) ∉ hiddenNames := by
  intro hmem
  have hd := data_df_append s
  simp only [hiddenNames, List.mem_cons, List.not_mem_nil, or_false] at hmem
  rcases hmem with h | h | h | h | h <;>
    · rw [h] at hd
      injection hd with h1
      exact absurd h1 (by decide)

theorem visible_of_df_data (t : String) (l : List Char)
    (h : t.data = 'd' :: 'f' :: '_' :: l) (hh : t ∉ hiddenNames) :
    isVisibleName t = true := by
  have h1 : startsUnderscore t = false := by
    unfold startsUnderscore
    rw [h]
    rfl
  simp [isVisibleName, h1, hh]

theorem visible_df_append (s : String) : isVisibleName ("df_" ++ s) = true :=
  visible_of_df_data _ s.data (data_df_append s) (df_append_not_hidden s)

theorem candName_eq_df_append (base : String) (k : Nat) :
    candName base k = "df_" ++ (base ++ "_" ++ Nat.repr k) := by
  unfold candName
  apply String.ext
  simp [String.data_append]

theorem candName_visible (base : String) (k : Nat) :
    isVisibleName (candName base k) = true := by
  rw [candName_eq_df_append]
  exact visible_df_append _

theorem autoNameLoop_visible (base : String) (vars : List String) :
    ∀ fuel c : Nat, isVisibleName (autoNameLoop base vars fuel c) = true := by
  intro fuel
  induction fuel with
  | zero => intro c; exact candName_visible base c
  | succ f ih =>
    intro c
    by_cases hc : candName base c ∈ vars
    · simp only [autoNameLoop, if_pos hc]; exact ih (c + 1)
    · simp only [autoNameLoop, if_neg hc]; exact candName_visible base c

theorem autoName_visible (base : String) (vars : List String) :
    isVisibleName (autoName base vars) = true := by
  unfold autoName
  by_cases h : ("df_" ++ base) ∈ vars
  · rw [if_pos h]; exact autoNameLoop_visible base vars _ _
  · rw [if_neg h]; exact visible_df_append base

/-- A user-visible name absent from `get_variables()` is absent from the
whole namespace. -/
theorem notMem_keysOf_of_visible (ns : NS) (n : String)
    (hv : isVisibleName n = true) (h : n ∉ variablesOf ns) :
    n ∉ keysOf ns := by
  intro hk
  exact h (List.mem_filter.mpr ⟨hk, hv⟩)

/-! ## Ring-buffer lemmas -/

theorem histAppend_eq (h : List HistoryEntry) (e : HistoryEntry) :
    histAppend h e = (h ++ [e]).drop (h.length + 1 - 100) := by
  simp only [histAppend]
  by_cases hl : 100 < (h ++ [e]).length
  · rw [if_pos hl]
    congr 1
    simp [List.length_append]
  · rw [if_neg hl]
    simp only [List.length_append, List.length_cons, List.length_nil] at hl
    have h0 : h.length + 1 - 100 = 0 := by omega
    rw [h0, List.drop_zero]

theorem histAppend_length_le (h : List HistoryEntry) (e : HistoryEntry) :
    (histAppend h e).length ≤ 100 := by
  rw [histAppend_eq, List.length_drop, List.length_append]
  simp only [List.length_cons, List.length_nil]
  omega

/-! ## Claim theorems -/

/-- C6.  The execution history is a ring buffer: after any `execute` or
`execute_expression_only` call the history holds at most 100 entries, and
on a completed `run_cell` the new history is the old history plus the new
entry for this submission, truncated to the most recent 100 entries in
submission order (the oldest `length + 1 - 100` entries discarded). -/
theorem execute_history_ring_buffer (sess : IPythonSession) (code : String)
    (run : RunAttempt) (h0 : sess.history.length ≤ 100) :
    ((sess.execute code run).1.history.length ≤ 100 ∧
      (sess.execute_expression_only code run).1.history.length ≤ 100) ∧
    (∀ r : RunOutcome, run = .ok r →
      (∃ e : HistoryEntry, e.code = code ∧ e.execution_count = sess.execution_count + 1 ∧
        (sess.execute code run).1.history =
          (sess.history ++ [e]).drop (sess.history.length + 1 - 100)) ∧
      (∃ e : HistoryEntry, e.code = code ∧ e.execution_count = sess.execution_count + 1 ∧
        (sess.execute_expression_only code run).1.history =
          (sess.history ++ [e]).drop (sess.history.length + 1 - 100))) := by
  constructor
  · cases run with
    | exn emsg tb el =>
      constructor <;>
        simpa [IPythonSession.execute, IPythonSession.execute_expression_only] using h0
    | ok r =>
      constructor <;>
        simp [IPythonSession.execute, IPythonSession.execute_expression_only,
          histAppend_length_le]
  · rintro r rfl
    constructor
    · refine ⟨⟨sess.execution_count + 1, code, r.error_in_exec.isNone, r.elapsed,
        remove_ansi_codes r.stdout, remove_ansi_codes r.stderr, r.result,
        r.error_in_exec.map remove_ansi_codes⟩, rfl, rfl, ?_⟩
      exact histAppend_eq sess.history _
    · refine ⟨⟨sess.execution_count + 1, code, r.error_in_exec.isNone, r.elapsed,
        "", "", r.result, r.error_in_exec.map remove_ansi_codes⟩, rfl, rfl, ?_⟩
      exact histAppend_eq sess.history _

/-- A concrete one-session state for witnesses. -/
def sampleSession : IPythonSession := ⟨"s", 0, [], []⟩

/-- A manager holding only `sampleSession` under id `"s"`. -/
def sampleManager : IPythonSessionManager := ⟨[("s", sampleSession)]⟩

/-- A concrete completed `run_cell` outcome whose submission wrote
`"hi\n"` to standard output and returned the value rendered `"2"`. -/
def sampleOutcome : RunOutcome := ⟨"hi\n", "", some "2", none, 0, 0⟩

/-- C6 witness at the empty-history session and a trivial outcome. -/
theorem execute_history_ring_buffer_witness :
    sampleSession.history.length ≤ 100 ∧
    (sampleSession.execute "1+1" (.ok sampleOutcome)).1.history.length ≤ 100 :=
  ⟨by decide,
    ((execute_history_ring_buffer sampleSession "1+1" (.ok sampleOutcome)
      (by decide)).1).1⟩

/-- C9.  Every `ExecutionResult` built by `execute` or
`execute_expression_only`, on the completed path and on the
internal-exception path alike, has `success = True` exactly when
`error = None`. -/
theorem execution_result_success_iff_no_error (sess : IPythonSession)
    (code : String) (run : RunAttempt) :
    ((sess.execute code run).2.success = (sess.execute code run).2.error.isNone) ∧
    ((sess.execute_expression_only code run).2.success =
      (sess.execute_expression_only code run).2.error.isNone) := by
  cases run with
  | exn emsg tb el =>
    simp [IPythonSession.execute, IPythonSession.execute_expression_only]
  | ok r =>
    cases he : r.error_in_exec <;>
      simp [IPythonSession.execute, IPythonSession.execute_expression_only, he]

/-- C7 counterexample: stripping is neither complete nor idempotent.  On
the eight-character input `ESC [ ESC [ 0 m 0 m` the single left-to-right
pass removes the inner `ESC [ 0 m`, and the freed fragments reassemble
into `ESC [ 0 m`, which the pattern still matches, so a second pass
differs from the first. -/
theorem remove_ansi_not_idempotent :
    hasAnsi (remove_ansi_codes "\x1B[\x1B[0m0m") = true ∧
    remove_ansi_codes (remove_ansi_codes "\x1B[\x1B[0m0m") ≠
      remove_ansi_codes "\x1B[\x1B[0m0m" := by
  constructor
  · decide
  · decide

/-- C7 amended: for every string holding at most one ESC character, the
output of `remove_ansi_codes` contains no match of its own pattern, and
`remove_ansi_codes` is idempotent on it.  (Matches reassembled from
fragments require two ESCs, as the counterexample shows.) -/
theorem remove_ansi_single_esc (s : String) (h : s.data.count escChar ≤ 1) :
    hasAnsi (remove_ansi_codes s) = false ∧
    remove_ansi_codes (remove_ansi_codes s) = remove_ansi_codes s := by
  obtain ⟨hid, hha⟩ := stripAnsi_single_esc h
  constructor
  · unfold hasAnsi
    rw [remove_ansi_codes_data]
    exact hha
  · apply String.ext
    rw [remove_ansi_codes_data, remove_ansi_codes_data, hid]

/-- C7 amended witness at a one-ESC colour sequence. -/
theorem remove_ansi_single_esc_witness :
    ("a\x1B[31mx".data.count escChar ≤ 1) ∧
    (hasAnsi (remove_ansi_codes "a\x1B[31mx") = false ∧
      remove_ansi_codes (remove_ansi_codes "a\x1B[31mx") =
        remove_ansi_codes "a\x1B[31mx") :=
  ⟨by decide, remove_ansi_single_esc "a\x1B[31mx" (by decide)⟩

/-- C3.  Session creation returns a unique id: whenever
`create_ipython_session` returns a `session_id` (which it does exactly on
success), that id was not mapped before the call and the only change is
the new mapping; and an explicit `session_id` that is already mapped
yields `success = False` with the session map unchanged. -/
theorem create_session_unique (m : IPythonSessionManager)
    (sid? : Option String) (auto : Bool) (hex : String) (ns : NS) :
    (∀ sid : String,
      dictGet (create_ipython_session true m sid? auto hex ns).2 "session_id" =
        some (.js sid) →
      dictGet m.sessions sid = none ∧
      (create_ipython_session true m sid? auto hex ns).1.sessions =
        dictSet m.sessions sid ⟨sid, 0, [], ns⟩) ∧
    (∀ s : String, sid? = some s → s ∈ keysOf m.sessions →
      dictGet (create_ipython_session true m sid? auto hex ns).2 "success" =
        some (.jb false) ∧
      (create_ipython_session true m sid? auto hex ns).1 = m) := by
  by_cases hc : (dictGet m.sessions (sid?.getD ("session_" ++ hex))).isSome
  · constructor
    · intro sid hget
      simp only [create_ipython_session, IPythonSessionManager.create_session,
        Bool.not_true, Bool.false_eq_true, if_false, hc, if_pos] at hget
      exact absurd hget (by simp [catchAll, PyExc.str, failDict, dictGet])
    · intro s hs hmem
      simp [create_ipython_session, IPythonSessionManager.create_session,
        hc, catchAll, failDict, PyExc.str, dictGet]
  · constructor
    · intro sid hget
      have hsid : sid?.getD ("session_" ++ hex) = sid := by
        simp only [create_ipython_session, IPythonSessionManager.create_session,
          Bool.not_true, Bool.false_eq_true, if_false, hc, if_neg] at hget
        simpa [dictGet] using hget
      rw [← hsid]
      constructor
      · exact Option.not_isSome_iff_eq_none.mp hc
      · simp only [create_ipython_session, IPythonSessionManager.create_session,
          Bool.not_true, Bool.false_eq_true, if_false, hc, if_neg]
    · intro s hs hmem
      exfalso
      apply hc
      rw [hs]
      simp only [Option.getD_some]
      exact (dictGet_isSome_iff m.sessions s).mpr hmem

/-- C3 witness: creating `"t"` on the sample manager maps a fresh id, and
re-creating the existing `"s"` fails and leaves the map unchanged. -/
theorem create_session_unique_witness :
    (dictGet (create_ipython_session true sampleManager (some "t") true "beef" []).2
        "session_id" = some (.js "t") ∧
      dictGet sampleManager.sessions "t" = none ∧
      (create_ipython_session true sampleManager (some "t") true "beef" []).1.sessions =
        dictSet sampleManager.sessions "t" ⟨"t", 0, [], []⟩) ∧
    (dictGet (create_ipython_session true sampleManager (some "s") true "beef" []).2
        "success" = some (.jb false) ∧
      (create_ipython_session true sampleManager (some "s") true "beef" []).1 =
        sampleManager) := by
  constructor
  · refine ⟨by decide, by decide, ?_⟩
    exact ((create_session_unique sampleManager (some "t") true "beef" []).1 "t"
      (by decide)).2
  · exact (create_session_unique sampleManager (some "s") true "beef" []).2 "s" rfl
      (by decide)

/-- C4.  Deleting an unknown id reports not-found and changes nothing;
deleting a mapped id succeeds, removes exactly that mapping, and leaves
every other session untouched.  (`Nodup` is the key-uniqueness invariant
of the Python dict.) -/
theorem delete_session_spec (m : IPythonSessionManager) (sid : String)
    (hnd : (keysOf m.sessions).Nodup) :
    (dictGet m.sessions sid = none →
      (delete_ipython_session m sid).1 = m ∧
      dictGet (delete_ipython_session m sid).2 "success" = some (.jb false) ∧
      dictGet (delete_ipython_session m sid).2 "error" =
        some (.js ("Session " ++ sid ++ " not found"))) ∧
    (∀ s : IPythonSession, dictGet m.sessions sid = some s →
      dictGet (delete_ipython_session m sid).2 "success" = some (.jb true) ∧
      dictGet (delete_ipython_session m sid).1.sessions sid = none ∧
      ∀ k : String, k ≠ sid →
        dictGet (delete_ipython_session m sid).1.sessions k =
          dictGet m.sessions k) := by
  constructor
  · intro hnone
    simp only [delete_ipython_session, IPythonSessionManager.delete_session,
      hnone, Option.isSome_none, Bool.false_eq_true, if_false]
    exact ⟨trivial, rfl, rfl⟩
  · intro s hsome
    simp only [delete_ipython_session, IPythonSessionManager.delete_session,
      hsome, Option.isSome_some, if_true]
    refine ⟨by simp [dictGet], ?_, ?_⟩
    · exact dictGet_dictDel_self m.sessions sid hnd
    · intro k hk
      exact dictGet_dictDel_ne m.sessions sid k hk

/-- C4 witness on the sample manager: deleting unknown `"t"` fails and
changes nothing; deleting `"s"` succeeds, removes it, and `"t"` reads the
same as before. -/
theorem delete_session_spec_witness :
    ((delete_ipython_session sampleManager "t").1 = sampleManager ∧
      dictGet (delete_ipython_session sampleManager "t").2 "success" =
        some (.jb false)) ∧
    (dictGet (delete_ipython_session sampleManager "s").2 "success" =
        some (.jb true) ∧
      dictGet (delete_ipython_session sampleManager "s").1.sessions "s" = none ∧
      dictGet (delete_ipython_session sampleManager "s").1.sessions "t" =
        dictGet sampleManager.sessions "t") := by
  have h1 := (delete_session_spec sampleManager "t" (by decide)).1 (by decide)
  have h2 := (delete_session_spec sampleManager "s" (by decide)).2 sampleSession
    (by decide)
  exact ⟨⟨h1.1, h1.2.1⟩, h2.1, h2.2.1, h2.2.2 "t" (by decide)⟩

/-- C5.  With pandas (and the Excel engines) available, loading a path
that does not exist on disk into an existing session fails with the
`FileNotFoundError` text `"File not found: <path>"`, and the whole session
map — hence the target session's namespace — is returned unchanged. -/
theorem load_missing_file (m : IPythonSessionManager) (sid path : String)
    (sess : IPythonSession) (fsHas : String → Bool) (oc : CsvOracle)
    (oe oj : LoadOracle) (vn : Option String) (enc : String) (sheet : SheetRef)
    (hs : dictGet m.sessions sid = some sess) (hf : fsHas path = false) :
    load_csv_file true fsHas oc m path sid vn enc =
      (m, failDict ("File not found: " ++ path)) ∧
    load_excel_file true true true fsHas oe m path sid vn sheet =
      (m, failDict ("File not found: " ++ path)) ∧
    load_json_file true fsHas oj m path sid vn =
      (m, failDict ("File not found: " ++ path)) := by
  refine ⟨?_, ?_, ?_⟩
  · simp [load_csv_file, IPythonSessionManager.get_session, hs,
      DataLoader.load_csv, hf, catchFNF]
  · simp [load_excel_file, IPythonSessionManager.get_session, hs,
      DataLoader.load_excel, hf, catchFNF]
  · simp [load_json_file, IPythonSessionManager.get_session, hs,
      DataLoader.load_json, hf, catchFNF]

/-- C5 witness: loading `"/no/such.csv"` from an empty disk on the sample
manager fails with the file-not-found text and changes nothing. -/
theorem load_missing_file_witness :
    dictGet sampleManager.sessions "s" = some sampleSession ∧
    ((fun _ : String => false) "/no/such.csv" = false) ∧
    load_csv_file true (fun _ => false) ⟨"utf-8", .error (.other "unused"), 0⟩
        sampleManager "/no/such.csv" "s" none "auto" =
      (sampleManager, failDict ("File not found: " ++ "/no/such.csv")) :=
  ⟨by decide, rfl,
    (load_missing_file sampleManager "s" "/no/such.csv" sampleSession
      (fun _ => false) ⟨"utf-8", .error (.other "unused"), 0⟩
      ⟨.error (.other "unused"), 0⟩ ⟨.error (.other "unused"), 0⟩
      none "auto" (.idx 0) (by decide) rfl).1⟩

/-- C10.  When `variable_name` is omitted and the load succeeds on an
existing session, the auto-generated name is never a key of the session's
user-visible variables; the load binds exactly that one new variable
(appending it to the namespace) and every other binding reads unchanged;
and all three loaders report that name in `variable_name`. -/
theorem load_auto_name_fresh (m : IPythonSessionManager) (sid path : String)
    (sess : IPythonSession) (fsHas : String → Bool) (oc : CsvOracle)
    (oe oj : LoadOracle) (enc : String) (sheet : SheetRef) (df : DataFrame)
    (hs : dictGet m.sessions sid = some sess) (hf : fsHas path = true)
    (hc : oc.parse = .ok df) (he : oe.parse = .ok df) (hj : oj.parse = .ok df)
    (hx : pathSuffix path = ".csv") :
    autoName (pathStem path) (variablesOf sess.user_ns) ∉
      variablesOf sess.user_ns ∧
    (∀ k : String, k ≠ autoName (pathStem path) (variablesOf sess.user_ns) →
      dictGet (sess.user_ns ++
        [(autoName (pathStem path) (variablesOf sess.user_ns),
          PyObj.dataframe df)]) k = dictGet sess.user_ns k) ∧
    (dictGet (load_csv_file true fsHas oc m path sid none enc).2
        "variable_name" =
      some (.js (autoName (pathStem path) (variablesOf sess.user_ns))) ∧
     (load_csv_file true fsHas oc m path sid none enc).1.sessions =
      dictSet m.sessions sid ⟨sess.session_id, sess.execution_count,
        sess.history, sess.user_ns ++
          [(autoName (pathStem path) (variablesOf sess.user_ns),
            PyObj.dataframe df)]⟩) ∧
    (dictGet (load_excel_file true true true fsHas oe m path sid none sheet).2
        "variable_name" =
      some (.js (autoName (pathStem path) (variablesOf sess.user_ns))) ∧
     (load_excel_file true true true fsHas oe m path sid none sheet).1.sessions =
      dictSet m.sessions sid ⟨sess.session_id, sess.execution_count,
        sess.history, sess.user_ns ++
          [(autoName (pathStem path) (variablesOf sess.user_ns),
            PyObj.dataframe df)]⟩) ∧
    (dictGet (load_json_file true fsHas oj m path sid none).2
        "variable_name" =
      some (.js (autoName (pathStem path) (variablesOf sess.user_ns))) ∧
     (load_json_file true fsHas oj m path sid none).1.sessions =
      dictSet m.sessions sid ⟨sess.session_id, sess.execution_count,
        sess.history, sess.user_ns ++
          [(autoName (pathStem path) (variablesOf sess.user_ns),
            PyObj.dataframe df)]⟩) := by
  have hfresh := autoName_fresh (pathStem path) (variablesOf sess.user_ns)
  have hvis := autoName_visible (pathStem path) (variablesOf sess.user_ns)
  have hkeys := notMem_keysOf_of_visible sess.user_ns _ hvis hfresh
  have happ := dictSet_of_notMem sess.user_ns _ (PyObj.dataframe df) hkeys
  refine ⟨hfresh, ?_, ⟨?_, ?_⟩, ⟨?_, ?_⟩, ⟨?_, ?_⟩⟩
  · intro k hk
    rw [← happ]
    exact dictGet_dictSet_ne sess.user_ns _ k (PyObj.dataframe df) hk
  · simp [load_csv_file, IPythonSessionManager.get_session, hs,
      DataLoader.load_csv, hf, hc, dictGet]
  · simp [load_csv_file, IPythonSessionManager.get_session, hs,
      DataLoader.load_csv, hf, hc, happ]
  · simp [load_excel_file, IPythonSessionManager.get_session, hs,
      DataLoader.load_excel, hf, he, hx, dictGet]
  · simp [load_excel_file, IPythonSessionManager.get_session, hs,
      DataLoader.load_excel, hf, he, hx, happ]
  · simp [load_json_file, IPythonSessionManager.get_session, hs,
      DataLoader.load_json, hf, hj, dictGet]
  · simp [load_json_file, IPythonSessionManager.get_session, hs,
      DataLoader.load_json, hf, hj, happ]

/-- C10 witness: loading `/tmp/data.csv` into the empty sample session
generates `df_data`, fresh by construction. -/
theorem load_auto_name_fresh_witness :
    autoName (pathStem "/tmp/data.csv") (variablesOf sampleSession.user_ns) ∉
      variablesOf sampleSession.user_ns ∧
    dictGet (load_csv_file true (fun _ => true)
        ⟨"utf-8", .ok ⟨2, ["a"], [("a", "int64")], 0⟩, 0⟩
        sampleManager "/tmp/data.csv" "s" none "auto").2 "variable_name" =
      some (.js (autoName (pathStem "/tmp/data.csv")
        (variablesOf sampleSession.user_ns))) := by
  have h := load_auto_name_fresh sampleManager "s" "/tmp/data.csv" sampleSession
    (fun _ => true) ⟨"utf-8", .ok ⟨2, ["a"], [("a", "int64")], 0⟩, 0⟩
    ⟨.ok ⟨2, ["a"], [("a", "int64")], 0⟩, 0⟩
    ⟨.ok ⟨2, ["a"], [("a", "int64")], 0⟩, 0⟩
    "auto" (.idx 0) ⟨2, ["a"], [("a", "int64")], 0⟩ (by decide) rfl rfl rfl rfl
    (by decide)
  exact ⟨h.1, h.2.2.1.1⟩

/-- C1 counterexample: in `expression_only` mode the returned `stdout`
field is the empty string even though the submission wrote `"hi\n"` to
standard output (the mode calls `run_cell` without output capture), so the
claim "the stdout field equals what the submission wrote, in both modes"
fails. -/
theorem execute_code_expression_only_drops_stdout :
    dictGet (execute_code sampleManager "print('hi')" "s" true true
        (.ok sampleOutcome)).2 "stdout" = some (.js "") ∧
    sampleOutcome.stdout = "hi\n" ∧
    some (JVal.js "") ≠ some (JVal.js "hi\n") := by
  refine ⟨by decide, by decide, by decide⟩

/-- C1 amended.  On an existing session and a completed `run_cell`, the
returned dictionary carries that one submission's captured state: in
default mode `stdout`/`stderr` are the captured streams with ANSI escapes
removed; in `expression_only` mode they are empty strings (output is not
captured); in both modes `result` is the formatted result value, `error`
the ANSI-stripped execution error, and `success` reflects its absence. -/
theorem execute_code_result_fields (m : IPythonSessionManager)
    (code sid : String) (co : Bool) (sess : IPythonSession) (r : RunOutcome)
    (hs : dictGet m.sessions sid = some sess) :
    (dictGet (execute_code m code sid co false (.ok r)).2 "stdout" =
        some (.js (remove_ansi_codes r.stdout)) ∧
      dictGet (execute_code m code sid co false (.ok r)).2 "stderr" =
        some (.js (remove_ansi_codes r.stderr)) ∧
      dictGet (execute_code m code sid co false (.ok r)).2 "result" =
        some (.ofOpt r.result) ∧
      dictGet (execute_code m code sid co false (.ok r)).2 "error" =
        some (.ofOpt (r.error_in_exec.map remove_ansi_codes)) ∧
      dictGet (execute_code m code sid co false (.ok r)).2 "success" =
        some (.jb r.error_in_exec.isNone)) ∧
    (dictGet (execute_code m code sid co true (.ok r)).2 "stdout" =
        some (.js "") ∧
      dictGet (execute_code m code sid co true (.ok r)).2 "stderr" =
        some (.js "") ∧
      dictGet (execute_code m code sid co true (.ok r)).2 "result" =
        some (.ofOpt r.result) ∧
      dictGet (execute_code m code sid co true (.ok r)).2 "error" =
        some (.ofOpt (r.error_in_exec.map remove_ansi_codes)) ∧
      dictGet (execute_code m code sid co true (.ok r)).2 "success" =
        some (.jb r.error_in_exec.isNone)) := by
  constructor <;>
    simp [execute_code, IPythonSessionManager.get_session, hs,
      IPythonSession.execute, IPythonSession.execute_expression_only, dictGet]

/-- C1 amended witness on the sample session and outcome. -/
theorem execute_code_result_fields_witness :
    dictGet sampleManager.sessions "s" = some sampleSession ∧
    dictGet (execute_code sampleManager "print('hi')" "s" true false
        (.ok sampleOutcome)).2 "stdout" =
      some (.js (remove_ansi_codes sampleOutcome.stdout)) :=
  ⟨by decide,
    ((execute_code_result_fields sampleManager "print('hi')" "s" true
      sampleSession sampleOutcome (by decide)).1).1⟩

/-- Left identity of string append, for rendering bare `str(e)`. -/
theorem empty_append_str (s : String) : "" ++ s = s :=
  String.ext (by simp)

/-- C2.  Every tool's `except` clauses turn the raised exception into a
returned dictionary with `success = False` and an `error` string that
carries `str(e)` (bare or behind a fixed context text); the Lean tool
functions are total, so nothing propagates, and each delegates exactly
once, so nothing retries.  The three `catch` shapes cover all seventeen
tools; the final conjuncts instantiate the raising paths of
`execute_code`, `create_ipython_session` and `clear_variables`. -/
theorem tool_errors_reported :
    (∀ (ctx : String) (e : PyExc),
      dictGet (catchAll ctx (.error e)) "success" = some (.jb false) ∧
      ∃ pre : String,
        dictGet (catchAll ctx (.error e)) "error" = some (.js (pre ++ e.str))) ∧
    (∀ (ctx : String) (e : PyExc),
      dictGet (catchVE ctx (.error e)) "success" = some (.jb false) ∧
      ∃ pre : String,
        dictGet (catchVE ctx (.error e)) "error" = some (.js (pre ++ e.str))) ∧
    (∀ (ctx : String) (e : PyExc),
      dictGet (catchFNF ctx (.error e)) "success" = some (.jb false) ∧
      ∃ pre : String,
        dictGet (catchFNF ctx (.error e)) "error" = some (.js (pre ++ e.str))) ∧
    (∀ (m : IPythonSessionManager) (code sid : String) (co eo : Bool)
        (run : RunAttempt), dictGet m.sessions sid = none →
      (execute_code m code sid co eo run).1 = m ∧
      dictGet (execute_code m code sid co eo run).2 "success" =
        some (.jb false) ∧
      dictGet (execute_code m code sid co eo run).2 "error" =
        some (.js ("Session " ++ sid ++ " not found"))) ∧
    (∀ (m : IPythonSessionManager) (s hex : String) (auto : Bool) (ns : NS),
      s ∈ keysOf m.sessions →
      dictGet (create_ipython_session true m (some s) auto hex ns).2
          "success" = some (.jb false) ∧
      dictGet (create_ipython_session true m (some s) auto hex ns).2
          "error" =
        some (.js ("Failed to create session: " ++
          ("Session " ++ s ++ " already exists")))) ∧
    (∀ (m : IPythonSessionManager) (sid : String)
        (vns : Option (List String)) (ca ki : Bool) (mb ma : Int),
      dictGet m.sessions sid = none →
      (clear_variables m sid vns ca ki mb ma).1 = m ∧
      dictGet (clear_variables m sid vns ca ki mb ma).2 "success" =
        some (.jb false) ∧
      dictGet (clear_variables m sid vns ca ki mb ma).2 "error" =
        some (.js ("Session " ++ sid ++ " not found"))) := by
  refine ⟨?_, ?_, ?_, ?_, ?_, ?_⟩
  · intro ctx e
    exact ⟨rfl, ⟨ctx, rfl⟩⟩
  · intro ctx e
    cases e with
    | valueError msg =>
      exact ⟨rfl, ⟨"", by rw [empty_append_str]; rfl⟩⟩
    | fileNotFound msg => exact ⟨rfl, ⟨ctx, rfl⟩⟩
    | importError msg => exact ⟨rfl, ⟨ctx, rfl⟩⟩
    | other msg => exact ⟨rfl, ⟨ctx, rfl⟩⟩
  · intro ctx e
    cases e with
    | valueError msg => exact ⟨rfl, ⟨"", by rw [empty_append_str]; rfl⟩⟩
    | fileNotFound msg => exact ⟨rfl, ⟨"", by rw [empty_append_str]; rfl⟩⟩
    | importError msg => exact ⟨rfl, ⟨ctx, rfl⟩⟩
    | other msg => exact ⟨rfl, ⟨ctx, rfl⟩⟩
  · intro m code sid co eo run hnone
    refine ⟨?_, ?_, ?_⟩ <;>
      simp [execute_code, IPythonSessionManager.get_session, hnone, catchVE,
        failDict, dictGet]
  · intro m s hex auto ns hmem
    have hsome : (dictGet m.sessions s).isSome = true :=
      (dictGet_isSome_iff m.sessions s).mpr hmem
    constructor <;>
      simp [create_ipython_session, IPythonSessionManager.create_session,
        hsome, catchAll, PyExc.str, failDict, dictGet]
  · intro m sid vns ca ki mb ma hnone
    refine ⟨?_, ?_, ?_⟩ <;>
      simp [clear_variables, IPythonSessionManager.get_session, hnone, catchVE,
        failDict, dictGet]

/-- C2 witness: the catch-all shape on a concrete exception, and
`execute_code`/`clear_variables` on the unknown id `"t"`. -/
theorem tool_errors_reported_witness :
    (dictGet (catchAll "Failed to execute code: " (.error (.other "boom")))
        "success" = some (.jb false) ∧
      ∃ pre : String,
        dictGet (catchAll "Failed to execute code: " (.error (.other "boom")))
          "error" = some (.js (pre ++ (PyExc.other "boom").str))) ∧
    ((execute_code sampleManager "1+1" "t" true false (.ok sampleOutcome)).1 =
        sampleManager ∧
      dictGet (execute_code sampleManager "1+1" "t" true false
          (.ok sampleOutcome)).2 "success" = some (.jb false) ∧
      dictGet (execute_code sampleManager "1+1" "t" true false
          (.ok sampleOutcome)).2 "error" =
        some (.js ("Session " ++ "t" ++ " not found"))) :=
  ⟨tool_errors_reported.1 "Failed to execute code: " (.other "boom"),
    tool_errors_reported.2.2.2.1 sampleManager "1+1" "t" true false
      (.ok sampleOutcome) (by decide)⟩

/-- C8.  In every feasible interleaving of two lock-guarded map mutations
(`create_session`/`delete_session`, both of the `guardedProg` shape) the
two critical sections do not interleave: the schedule is one whole call
followed by the other.  By contrast the unlocked `execute` calls of two
threads on one session admit a feasible schedule in which their
interpreter-state mutations alternate. -/
theorem lock_serializes_map_mutation :
    (∀ tr ∈ interleavings (guardedProg 0) (guardedProg 1),
      lockOk none tr = true →
      tr = guardedProg 0 ++ guardedProg 1 ∨
        tr = guardedProg 1 ++ guardedProg 0) ∧
    ([ThreadAct.shellMutate 0, .shellMutate 1, .shellMutate 0, .shellMutate 1] ∈
        interleavings (executeProg 0) (executeProg 1) ∧
      lockOk none
        [ThreadAct.shellMutate 0, .shellMutate 1, .shellMutate 0,
          .shellMutate 1] = true ∧
      [ThreadAct.shellMutate 0, .shellMutate 1, .shellMutate 0,
          .shellMutate 1] ≠ executeProg 0 ++ executeProg 1 ∧
      [ThreadAct.shellMutate 0, .shellMutate 1, .shellMutate 0,
          .shellMutate 1] ≠ executeProg 1 ++ executeProg 0) := by
  constructor
  · decide
  · decide

/-- C8 witness: the fully sequential schedule is feasible and serialized. -/
theorem lock_serializes_map_mutation_witness :
    (guardedProg 0 ++ guardedProg 1) ∈
      interleavings (guardedProg 0) (guardedProg 1) ∧
    lockOk none (guardedProg 0 ++ guardedProg 1) = true ∧
    (guardedProg 0 ++ guardedProg 1 = guardedProg 0 ++ guardedProg 1 ∨
      guardedProg 0 ++ guardedProg 1 = guardedProg 1 ++ guardedProg 0) :=
  ⟨by decide, by decide,
    lock_serializes_map_mutation.1 (guardedProg 0 ++ guardedProg 1)
      (by decide) (by decide)⟩

end DataMCP
